import Mathlib

/-!
# Shallow embedding of the risque16 assembler

The repository's Go sources under `src/assembler` each contain two
concatenated drafts of the same file (an earlier and a later version of
the program), plus embedded documentation.  The later drafts are the ones
that type-check against the single version of `state.go` (whose `lookup`
returns a `(value, defined, known)` triple); they are embedded below at
top level and in namespace `V2` where a name clash with the earlier draft
would otherwise arise.  The earlier drafts' encoder functions that some
claims cite (`opMov`, `opFormat2`, ...) are embedded in namespace `V1`.

Machine integers: Go `uint16` values are modelled as `Nat` with explicit
reduction modulo 2^16 at every operation that can overflow.  Go maps are
modelled as association lists (`List (String × LabelRef)`), where map
assignment replaces an existing entry in place or appends a new one.
The 65536-word ROM array is modelled as a write log `List (Nat × Nat)`
(newest write first); the `used` set as a `List Nat`.

Fallible code: `asmError` calls `os.Exit(1)` and `panic` aborts the
process; both are modelled by returning `Except Fault _`, with the two
kinds kept apart by the `Fault.asmError` / `Fault.goPanic` constructors.
Formatted error messages are modelled structurally: each constructor
carries exactly the data the Go format string interpolates.
-/

/-- Addition of two 16-bit words (Go `uint16` `+`). -/
def add16 (a b : Nat) : Nat := (a + b) % 65536

/-- Subtraction of two 16-bit words (Go `uint16` `-`, wrapping). -/
def sub16 (a b : Nat) : Nat := (a % 65536 + 65536 - b % 65536) % 65536

/-- Negation of a 16-bit word (Go unary `-` on `uint16`). -/
def neg16 (a : Nat) : Nat := (65536 - a % 65536) % 65536

/-- Multiplication of two 16-bit words (Go `uint16` `*`). -/
def mul16 (a b : Nat) : Nat := (a * b) % 65536

/-- Token kinds, from `lexer.go` (single draft in the repo). -/
inductive Token where
  | ILLEGAL
  | EOF
  | WS
  | NEWLINE
  | REGISTER
  | PC
  | SP
  | LR
  | NUMBER
  | IDENT
  | STRING
  | DOT
  | HASH
  | COLON
  | COMMA
  | LBRAC
  | RBRAC
  | LPAREN
  | RPAREN
  | LBRACE
  | RBRACE
  | PLUS
  | MINUS
  | TIMES
  | DIVIDE
  | LANGLES
  | RANGLES
  | AND
  | OR
  | XOR
  | NOT
deriving DecidableEq, Repr

/-- Structured payload of an `asmError` call (ast.go `asmError`): the Go
code formats these into a message and exits; each constructor carries the
data the corresponding format string cites.  `unsignedTooBig v w` stands
for "Unsigned literal %d (0x%x) is too big for %d-bit literal" (the value
is cited twice, in decimal and hex, plus the width), `signedDoesNotFit`
likewise for the signed message. -/
inductive AsmMsg where
  | unknownLabel (name : String)
  | unsignedTooBig (value width : Nat)
  | signedDoesNotFit (value width : Nat)
  | unrecognizedOpcode (op : String)
  | badArguments (mnemonic : String)
deriving DecidableEq, Repr

/-- Go run-time panics reachable in the embedded code: `push`'s
"overlapping regions" panic, integer division by zero, the `panic` calls
in `Evaluate`'s default branches and `updateLabel`, and nil-pointer /
out-of-range dereferences. -/
inductive GoPanic where
  | overlappingRegions (addr : Nat)
  | divideByZero
  | unknownBinaryOp (t : Token)
  | unknownUnaryOp (t : Token)
  | unknownLabelUpdate (name : String)
  | nilPointer
  | indexOutOfRange
deriving DecidableEq, Repr

/-- A fatal outcome: either a located `asmError` (which prints and calls
`os.Exit(1)`) or a Go run-time panic. -/
inductive Fault where
  | asmError (loc : String) (msg : AsmMsg)
  | goPanic (p : GoPanic)
deriving DecidableEq, Repr

/-- state.go: `LabelRef` — value and defined flag of a label/symbol. -/
structure LabelRef where
  value : Nat
  defined : Bool
deriving DecidableEq, Repr

/-- state.go: `AssemblyState`.  `labels` and `symbols` are Go maps
(association lists here), `rom` is the 65536-word array modelled as a
write log (newest first), `used` the per-pass used-address set. -/
structure AssemblyState where
  labels : List (String × LabelRef)
  symbols : List (String × LabelRef)
  resolved : Bool
  dirty : Bool
  rom : List (Nat × Nat)
  index : Nat
  used : List Nat
deriving DecidableEq, Repr

/-- Go map assignment `m[k] = v` on an association list: replace the
existing entry in place, or append a fresh one. -/
def setEntry (m : List (String × LabelRef)) (k : String) (v : LabelRef) :
    List (String × LabelRef) :=
  if (m.lookup k).isSome then
    m.map (fun e => if e.1 == k then (e.1, v) else e)
  else
    m ++ [(k, v)]

/-- state.go `lookup`: labels first, then symbols; returns
`(value, defined, known)`. -/
def AssemblyState.lookup (s : AssemblyState) (key : String) :
    Nat × Bool × Bool :=
  match s.labels.lookup key with
  | some lr => (lr.value, lr.defined, true)
  | none =>
    match s.symbols.lookup key with
    | some lr => (lr.value, lr.defined, true)
    | none => (0, false, false)

/-- state.go `addLabel`: registers a label as `{0, false}`. -/
def AssemblyState.addLabel (s : AssemblyState) (l : String) : AssemblyState :=
  { s with labels := setEntry s.labels l ⟨0, false⟩ }

/-- state.go `updateLabel`: sets `dirty` when the label was undefined or
its value changes, then stores the new value; panics on an unknown label. -/
def AssemblyState.updateLabel (s : AssemblyState) (l : String) (loc : Nat) :
    Except Fault AssemblyState :=
  match s.labels.lookup l with
  | some lr =>
    let d := if !lr.defined || lr.value != loc then true else s.dirty
    .ok { s with dirty := d, labels := setEntry s.labels l ⟨loc, true⟩ }
  | none => .error (.goPanic (.unknownLabelUpdate l))

/-- state.go `updateSymbol`: unconditional map assignment. -/
def AssemblyState.updateSymbol (s : AssemblyState) (l : String) (val : Nat) :
    AssemblyState :=
  { s with symbols := setEntry s.symbols l ⟨val, true⟩ }

/-- state.go `reset`: fresh symbol table and used set, `resolved := true`,
`dirty := false`, cursor at 0.  Labels and ROM are untouched. -/
def AssemblyState.reset (s : AssemblyState) : AssemblyState :=
  { s with symbols := [], resolved := true, dirty := false, index := 0,
           used := [] }

/-- state.go `push`: panic "overlapping regions" if the cursor address was
already written this pass, else mark it used, store the word and advance
the cursor (uint16 increment, wrapping). -/
def AssemblyState.push (s : AssemblyState) (x : Nat) :
    Except Fault AssemblyState :=
  if s.index ∈ s.used then
    .error (.goPanic (.overlappingRegions s.index))
  else
    .ok { s with used := s.index :: s.used, rom := (s.index, x) :: s.rom,
                 index := add16 s.index 1 }

namespace V2

/-- ast.go (later draft): expressions — constants, label/symbol uses,
binary and unary operator nodes.  Location strings are carried as in the
source (the embedding does not compute file positions, so parser-produced
locations are `""`). -/
inductive Expression where
  | Constant (value : Nat) (loc : String)
  | LabelUse (label : String) (loc : String)
  | BinExpr (lhs : Expression) (operator : Token) (rhs : Expression)
  | UnaryExpr (operator : Token) (expr : Expression)
deriving DecidableEq, Repr

/-- ast.go (later draft) `Location` methods of the four expression kinds. -/
def Expression.Location : Expression → String
  | .Constant _ loc => loc
  | .LabelUse _ loc => loc
  | .BinExpr lhs _ _ => lhs.Location
  | .UnaryExpr _ e => e.Location

/-- ast.go (later draft) `Evaluate`.  The Go methods receive the state by
pointer and never write to it, so the unchanged state is threaded through
the result.  `LabelUse`: a name absent from both tables is a fatal
"Unknown label" `asmError`; a present entry returns its value whether or
not it is `defined` (the `defined` flag is discarded with `_`), and the
`resolved` flag is not touched.  `BinExpr` with `DIVIDE` and a zero right
operand is a Go run-time division-by-zero panic.  The `default` branches
of the Go switches are `panic` calls. -/
def Expression.Evaluate : Expression → AssemblyState →
    Except Fault (Nat × AssemblyState)
  | .Constant v _, s => .ok (v, s)
  | .LabelUse label loc, s =>
    match s.lookup label with
    | (value, _, known) =>
      if known then .ok (value, s)
      else .error (.asmError loc (.unknownLabel label))
  | .BinExpr lhs op rhs, s => do
    let (l, s) ← lhs.Evaluate s
    let (r, s) ← rhs.Evaluate s
    match op with
    | .PLUS => .ok (add16 l r, s)
    | .MINUS => .ok (sub16 l r, s)
    | .TIMES => .ok (mul16 l r, s)
    | .DIVIDE =>
      if r == 0 then .error (.goPanic .divideByZero) else .ok (l / r, s)
    | .AND => .ok ((l &&& r), s)
    | .OR => .ok ((l ||| r), s)
    | .XOR => .ok ((l ^^^ r), s)
    | t => .error (.goPanic (.unknownBinaryOp t))
  | .UnaryExpr op e, s => do
    let (v, s) ← e.Evaluate s
    match op with
    | .PLUS => .ok (v, s)
    | .MINUS => .ok (neg16 v, s)
    | .NOT => .ok ((0xffff ^^^ v), s)
    | t => .error (.goPanic (.unknownUnaryOp t))

/-- ast.go `checkLiteral` (the text is identical in both drafts): unsigned
fields accept `value < 1 <<< width` (the shift performed in `uint16`);
signed fields accept values where `value ||| mask` equals `mask` or
`0xffff` for `mask := uint16(1 <<< width - 1)`.  Anything else is a fatal
range `asmError` citing the value and the width. -/
def checkLiteral (s : AssemblyState) (expr : Expression) (signed : Bool)
    (width : Nat) : Except Fault (Nat × AssemblyState) := do
  let (value, s) ← expr.Evaluate s
  let loc := expr.Location
  if !signed then
    if value < 2 ^ width % 65536 then
      .ok (value, s)
    else
      .error (.asmError loc (.unsignedTooBig value width))
  else
    let mask := (2 ^ width + 65535) % 65536
    if (value ||| mask) == mask || (value ||| mask) == 0xffff then
      .ok (value, s)
    else
      .error (.asmError loc (.signedDoesNotFit value width))

end V2

/-- ast.go argument-kind constants (`AT_REG` ... `AT_LITERAL`, via `iota`). -/
def AT_REG : Nat := 0

/-- Argument kind `AT_PC`. -/
def AT_PC : Nat := 1

/-- Argument kind `AT_SP`. -/
def AT_SP : Nat := 2

/-- Argument kind `AT_RLIST`. -/
def AT_RLIST : Nat := 3

/-- Argument kind `AT_LABEL`. -/
def AT_LABEL : Nat := 4

/-- Argument kind `AT_LITERAL`. -/
def AT_LITERAL : Nat := 5

namespace V2

/-- ast.go (later draft) `Arg`: kind tag plus the fields the kinds use.
The Go `lit` and `label` fields are nilable interface values, hence
`Option`. -/
structure Arg where
  kind : Nat
  reg : Nat := 0
  lrpc : Bool := false
  lit : Option Expression := none
  label : Option Expression := none
deriving DecidableEq, Repr

/-- Indexing `args[i]` in Go panics when out of range. -/
def getArg (args : List Arg) (i : Nat) : Except Fault Arg :=
  match args.get? i with
  | some a => .ok a
  | none => .error (.goPanic .indexOutOfRange)

/-- Dereferencing a nil `lit`/`label` field in Go is a nil-pointer panic. -/
def getExpr (e : Option Expression) : Except Fault Expression :=
  match e with
  | some e => .ok e
  | none => .error (.goPanic .nilPointer)

/-- ast.go (later draft) `riInstructions` table. -/
def riInstructions : List (String × Nat) :=
  [("MOV", 0x1), ("NEG", 0x2), ("CMP", 0x3), ("ADD", 0x4), ("SUB", 0x5),
   ("MUL", 0x6), ("LSL", 0x7), ("LSR", 0x8), ("ASR", 0x9), ("AND", 0xa),
   ("ORR", 0xb), ("XOR", 0xc), ("MVH", 0xf)]

/-- ast.go (later draft) `rrrInstructions` table. -/
def rrrInstructions : List (String × Nat) :=
  [("ADD", 0x1), ("ADC", 0x2), ("SUB", 0x3), ("SBC", 0x4), ("MUL", 0x5),
   ("LSL", 0x6), ("LSR", 0x7), ("ASR", 0x8), ("AND", 0x9), ("ORR", 0xa),
   ("XOR", 0xb)]

/-- ast.go (later draft) `rrInstructions` table. -/
def rrInstructions : List (String × Nat) :=
  [("MOV", 0x1), ("CMP", 0x2), ("CMN", 0x3), ("ROR", 0x4), ("NEG", 0x5),
   ("TST", 0x6), ("MVN", 0x7)]

/-- ast.go (later draft) `rInstructions` table. -/
def rInstructions : List (String × Nat) :=
  [("BX", 0x1), ("BLX", 0x2), ("SWI", 0x3), ("HWN", 0x4), ("HWQ", 0x5),
   ("HWI", 0x6), ("XSR", 0x7)]

/-- ast.go (later draft) `voidInstructions` table. -/
def voidInstructions : List (String × Nat) :=
  [("RFI", 0), ("IFS", 1), ("IFC", 2), ("RET", 3), ("POPSP", 4), ("BRK", 5)]

/-- ast.go (later draft) `branchInstructions` table. -/
def branchInstructions : List (String × Nat) :=
  [("B", 0x0), ("BL", 0x1), ("BEQ", 0x2), ("BNE", 0x3), ("BCS", 0x4),
   ("BCC", 0x5), ("BMI", 0x6), ("BPL", 0x7), ("BVS", 0x8), ("BVC", 0x9),
   ("BHI", 0xa), ("BLS", 0xb), ("BGE", 0xc), ("BLT", 0xd), ("BGT", 0xe),
   ("BLE", 0xf)]

/-- ast.go (later draft) `specialInstructions` table; the map values are
the functions `opAddSub` (ADD, SUB) and `opSWI` (SWI), dispatched by name
in `Instruction.Assemble` below. -/
def specialInstructions : List String := ["ADD", "SUB", "SWI"]

/-- instructions.go (later draft) `opRI`.  MOV is special-cased: a value
that fits 8 bits is a single MOV word; a value above 0xff00 is encoded as
NEG of its negation; anything else is a MOV of the low byte followed by an
MVH of the high byte.  Non-MOV mnemonics range-check an unsigned 8-bit
literal. -/
def opRI (loc mnemonic : String) (opcode : Nat) (args : List Arg)
    (s : AssemblyState) : Except Fault AssemblyState := do
  let a0 ← getArg args 0
  let a1 ← getArg args 1
  if mnemonic == "MOV" then
    let lit ← getExpr a1.lit
    let (value, s) ← lit.Evaluate s
    if value ≤ 255 then
      s.push (((opcode <<< 11) ||| (((a0.reg <<< 8) ||| value))))
    else if value > 0xff00 then
      s.push ((0x1000 ||| (((a0.reg <<< 8) ||| (neg16 value)))))
    else do
      let s ← s.push ((0x0800 ||| (((a0.reg <<< 8) ||| ((value &&& 0xff))))))
      s.push ((0x7800 ||| (((a0.reg <<< 8) ||| (value >>> 8)))))
  else do
    let lit ← getExpr a1.lit
    let (value, s) ← checkLiteral s lit false 8
    s.push (((opcode <<< 11) ||| (((a0.reg <<< 8) ||| value))))

/-- instructions.go (later draft) `opRRR`. -/
def opRRR (loc mnemonic : String) (opcode : Nat) (args : List Arg)
    (s : AssemblyState) : Except Fault AssemblyState := do
  let a0 ← getArg args 0
  let a1 ← getArg args 1
  let a2 ← getArg args 2
  s.push ((0x8000 ||| (((opcode <<< 9) ||| (((a2.reg <<< 6) ||| (((a1.reg <<< 3) ||| a0.reg))))))))

/-- instructions.go (later draft) `opRR`. -/
def opRR (loc mnemonic : String) (opcode : Nat) (args : List Arg)
    (s : AssemblyState) : Except Fault AssemblyState := do
  let a0 ← getArg args 0
  let a1 ← getArg args 1
  s.push ((0x8000 ||| (((opcode <<< 6) ||| (((a1.reg <<< 3) ||| a0.reg))))))

/-- instructions.go (later draft) `opR`. -/
def opR (loc mnemonic : String) (opcode : Nat) (args : List Arg)
    (s : AssemblyState) : Except Fault AssemblyState := do
  let a0 ← getArg args 0
  s.push ((0x8000 ||| (((opcode <<< 3) ||| a0.reg))))

/-- instructions.go (later draft) `opVoid`. -/
def opVoid (loc mnemonic : String) (opcode : Nat) (s : AssemblyState) :
    Except Fault AssemblyState :=
  s.push ((0x8000 ||| opcode))

/-- instructions.go (later draft) `opBranch`: computes the uint16
difference `target - (index + 1)`; a diff of -1 (0xffff) is explicitly
forced to the long form because the all-ones offset field is the escape
marker.  Short form: one word with the 9-bit offset `diff &&& 0x1ff`.
Long form: a word with offset field 0x1ff followed by the raw target. -/
def opBranch (loc mnemonic : String) (opcode : Nat) (args : List Arg)
    (s : AssemblyState) : Except Fault AssemblyState := do
  let a0 ← getArg args 0
  let lbl ← getExpr a0.label
  let (target, s) ← lbl.Evaluate s
  let diff := sub16 target (add16 s.index 1)
  if diff != 0xffff && (diff < 256 || neg16 diff ≤ 256) then
    s.push ((0xa000 ||| (((opcode <<< 9) ||| ((diff &&& 0x1ff))))))
  else do
    let s ← s.push ((0xa000 ||| (((opcode <<< 9) ||| 0x1ff))))
    s.push target

/-- instructions.go (later draft) `opAddSub` (a `specialInstructions`
entry): RI form, RRR form, ADD with PC/SP base, and SP-adjust form. -/
def opAddSub (loc mnemonic : String) (args : List Arg) (s : AssemblyState) :
    Except Fault AssemblyState :=
  match args with
  | [a0, a1] =>
    if a0.kind == AT_REG && a1.kind == AT_LITERAL then
      opRI loc mnemonic (if mnemonic == "SUB" then 5 else 4) [a0, a1] s
    else if a0.kind == AT_SP && a1.kind == AT_LITERAL then do
      let lit ← getExpr a1.lit
      let (value, s) ← checkLiteral s lit false 8
      s.push ((((if mnemonic == "SUB" then 1 else 0) <<< 8) ||| value))
    else
      .error (.asmError loc (.badArguments mnemonic))
  | [a0, a1, a2] =>
    if a0.kind == AT_REG && a1.kind == AT_REG && a2.kind == AT_REG then
      opRRR loc mnemonic (if mnemonic == "SUB" then 3 else 1) [a0, a1, a2] s
    else if mnemonic == "ADD" && a0.kind == AT_REG && a1.kind == AT_PC &&
        a2.kind == AT_LITERAL then do
      let lit ← getExpr a2.lit
      let (value, s) ← checkLiteral s lit false 8
      s.push (((0xd <<< 11) ||| (((a0.reg <<< 8) ||| value))))
    else if mnemonic == "ADD" && a0.kind == AT_REG && a1.kind == AT_SP &&
        a2.kind == AT_LITERAL then do
      let lit ← getExpr a2.lit
      let (value, s) ← checkLiteral s lit false 8
      s.push (((0xe <<< 11) ||| (((a0.reg <<< 8) ||| value))))
    else
      .error (.asmError loc (.badArguments mnemonic))
  | _ => .error (.asmError loc (.badArguments mnemonic))

/-- instructions.go (later draft) `opSWI`: register or 8-bit literal. -/
def opSWI (loc mnemonic : String) (args : List Arg) (s : AssemblyState) :
    Except Fault AssemblyState :=
  match args with
  | [a0] =>
    if a0.kind == AT_REG then
      s.push ((0x8018 ||| a0.reg))
    else if a0.kind == AT_LITERAL then do
      let lit ← getExpr a0.lit
      let (value, s) ← checkLiteral s lit false 8
      s.push ((0x0200 ||| value))
    else
      .error (.asmError loc (.badArguments mnemonic))
  | _ => .error (.asmError loc (.badArguments mnemonic))

/-- Which branch of the ast.go (later draft) `Instruction.Assemble`
if-chain fires: each `try...` mirrors one `if n, ok := table[opcode]; ok
&& shape` condition, in source order. -/
inductive Dispatch where
  | rrr (n : Nat)
  | rr (n : Nat)
  | r (n : Nat)
  | voidCase (n : Nat)
  | ri (n : Nat)
  | branch (n : Nat)
  | special
deriving DecidableEq, Repr

/-- Condition 1: three-register form. -/
def tryRRR (opcode : String) (args : List Arg) : Option Dispatch :=
  match rrrInstructions.lookup opcode, args with
  | some n, [a0, a1, a2] =>
    if a0.kind == AT_REG && a1.kind == AT_REG && a2.kind == AT_REG then
      some (.rrr n)
    else none
  | _, _ => none

/-- Condition 2: two-register form. -/
def tryRR (opcode : String) (args : List Arg) : Option Dispatch :=
  match rrInstructions.lookup opcode, args with
  | some n, [a0, a1] =>
    if a0.kind == AT_REG && a1.kind == AT_REG then some (.rr n) else none
  | _, _ => none

/-- Condition 3: one-register form. -/
def tryR (opcode : String) (args : List Arg) : Option Dispatch :=
  match rInstructions.lookup opcode, args with
  | some n, [a0] => if a0.kind == AT_REG then some (.r n) else none
  | _, _ => none

/-- Condition 4: zero-argument form. -/
def tryVoid (opcode : String) (args : List Arg) : Option Dispatch :=
  match voidInstructions.lookup opcode, args with
  | some n, [] => some (.voidCase n)
  | _, _ => none

/-- Condition 5: register-and-literal form. -/
def tryRI (opcode : String) (args : List Arg) : Option Dispatch :=
  match riInstructions.lookup opcode, args with
  | some n, [a0, a1] =>
    if a0.kind == AT_REG && a1.kind == AT_LITERAL then some (.ri n) else none
  | _, _ => none

/-- Condition 6: label-argument branch form. -/
def tryBranch (opcode : String) (args : List Arg) : Option Dispatch :=
  match branchInstructions.lookup opcode, args with
  | some n, [a0] => if a0.kind == AT_LABEL then some (.branch n) else none
  | _, _ => none

/-- Condition 7: `specialInstructions` lookup (no shape test). -/
def trySpecial (opcode : String) (args : List Arg) : Option Dispatch :=
  if specialInstructions.contains opcode then some .special else none

/-- The ast.go (later draft) `Instruction.Assemble` if-chain, in source
order. -/
def dispatchFor (opcode : String) (args : List Arg) : Option Dispatch :=
  (tryRRR opcode args) <|> (tryRR opcode args) <|> (tryR opcode args) <|>
  (tryVoid opcode args) <|> (tryRI opcode args) <|>
  (tryBranch opcode args) <|> (trySpecial opcode args)

/-- ast.go (later draft) `Instruction.Assemble`: dispatch to the encoder
selected by mnemonic and argument shape; an unmatched opcode is the fatal
"Unrecognized opcode" error. -/
def Instruction.Assemble (loc opcode : String) (args : List Arg)
    (s : AssemblyState) : Except Fault AssemblyState :=
  match dispatchFor opcode args with
  | some (.rrr n) => opRRR loc opcode n args s
  | some (.rr n) => opRR loc opcode n args s
  | some (.r n) => opR loc opcode n args s
  | some (.voidCase n) => opVoid loc opcode n s
  | some (.ri n) => opRI loc opcode n args s
  | some (.branch n) => opBranch loc opcode n args s
  | some .special =>
    match opcode with
    | "SWI" => opSWI loc opcode args s
    | _ => opAddSub loc opcode args s
  | none => .error (.asmError loc (.unrecognizedOpcode opcode))

/-- ast.go (later draft) statement variants relevant to the claims
(`LoadStore` and `StackOp` statements are not needed by any claim and are
omitted).  Constructor argument order matches the Go struct field order;
in particular `FillBlock length value` mirrors
`type FillBlock struct { length Expression; value Expression }`. -/
inductive Assembled where
  | Org (loc : Expression)
  | SymbolDef (name : String) (value : Expression)
  | DatBlock (values : List Expression)
  | FillBlock (length : Expression) (value : Expression)
  | LabelDef (label : String)
  | Instruction (opcode : String) (args : List Arg) (loc : String)
deriving DecidableEq, Repr

/-- ast.go `DatBlock.Assemble` loop body: evaluate and push each value. -/
def datFold (values : List Expression) (s : AssemblyState) :
    Except Fault AssemblyState :=
  match values with
  | [] => .ok s
  | v :: rest => do
    let (x, s) ← v.Evaluate s
    let s ← s.push x
    datFold rest s

/-- ast.go `FillBlock.Assemble` loop: push `val` `len` times. -/
def pushN (len val : Nat) (s : AssemblyState) : Except Fault AssemblyState :=
  match len with
  | 0 => .ok s
  | n + 1 => do
    let s ← s.push val
    pushN n val s

/-- ast.go (later draft) `Assemble` methods of the statement variants:
`Org` sets the cursor, `SymbolDef` rebinds a symbol, `DatBlock` and
`FillBlock` emit words, `LabelDef` records the cursor as the label's
value, `Instruction` dispatches to the encoder. -/
def Assembled.Assemble (a : Assembled) (s : AssemblyState) :
    Except Fault AssemblyState :=
  match a with
  | .Org loc => do
    let (v, s) ← loc.Evaluate s
    .ok { s with index := v }
  | .SymbolDef name value => do
    let (v, s) ← value.Evaluate s
    .ok (s.updateSymbol name v)
  | .DatBlock values => datFold values s
  | .FillBlock length value => do
    let (len, s) ← length.Evaluate s
    let (val, s) ← value.Evaluate s
    pushN len val s
  | .LabelDef label => s.updateLabel label s.index
  | .Instruction opcode args loc => Instruction.Assemble loc opcode args s

/-- main.go: replay of every statement, in source order, of one pass. -/
def assembleLines (lines : List Assembled) (s : AssemblyState) :
    Except Fault AssemblyState :=
  match lines with
  | [] => .ok s
  | l :: rest => do
    let s ← l.Assemble s
    assembleLines rest s

/-- The Go zero value of `AssemblyState` (`new(AssemblyState)` with the
label map allocated, as `main` does). -/
def initialAssemblyState : AssemblyState :=
  { labels := [], symbols := [], resolved := false, dirty := false,
    rom := [], index := 0, used := [] }

/-- main.go label pre-collection: `addLabel` for every `LabelDef`. -/
def collectLabels (lines : List Assembled) (s : AssemblyState) :
    AssemblyState :=
  match lines with
  | [] => s
  | .LabelDef l :: rest => collectLabels rest (s.addLabel l)
  | _ :: rest => collectLabels rest s

/-- main.go: state at the top of the fixed-point loop — fresh state,
reset, labels collected, `dirty` forced to `true` so at least one pass
runs. -/
def driverStart (lines : List Assembled) : AssemblyState :=
  { collectLabels lines initialAssemblyState.reset with dirty := true }

/-- main.go: one iteration of the fixed-point loop — `reset` then replay
every statement. -/
def onePass (lines : List Assembled) (s : AssemblyState) :
    Except Fault AssemblyState :=
  assembleLines lines s.reset

/-- Iterated passes of the main.go loop `for s.dirty || !s.resolved`.
The loop terminates normally exactly when some `n ≥ 1` of iterated passes
reaches a state with `dirty = false` and `resolved = true` (the condition
is re-checked before each pass; `driverStart` makes it true initially). -/
def runPasses (lines : List Assembled) (n : Nat) (s : AssemblyState) :
    Except Fault AssemblyState :=
  match n with
  | 0 => .ok s
  | m + 1 => do
    let s' ← onePass lines s
    runPasses lines m s'

end V2

/-- The rune(0) the Go scanner uses for end of input. -/
def eofChar : Char := Char.ofNat 0

/-- lexer.go `isWhitespace`. -/
def isWhitespace (ch : Char) : Bool := ch == ' ' || ch == '\t'

/-- lexer.go `isLetter`. -/
def isLetter (ch : Char) : Bool :=
  (decide ('A' ≤ ch) && decide (ch ≤ 'Z')) ||
  (decide ('a' ≤ ch) && decide (ch ≤ 'z'))

/-- lexer.go `isDigit`. -/
def isDigit (ch : Char) : Bool := decide ('0' ≤ ch) && decide (ch ≤ '9')

/-- lexer.go `isHexDigit`. -/
def isHexDigit (ch : Char) : Bool :=
  isDigit ch || (decide ('a' ≤ ch) && decide (ch ≤ 'f')) ||
  (decide ('A' ≤ ch) && decide (ch ≤ 'F'))

/-- Go `strings.ToUpper` on one character (ASCII range, the only
characters identifiers can contain). -/
def charUpper (c : Char) : Char :=
  if decide ('a' ≤ c) && decide (c ≤ 'z') then Char.ofNat (c.toNat - 32)
  else c

/-- Go `strings.ToUpper` (ASCII). -/
def toUpperStr (s : String) : String := String.mk (s.data.map charUpper)

/-- lexer.go `keywords`. -/
def keywords : List (String × Token) :=
  [("PC", .PC), ("SP", .SP), ("LR", .LR),
   ("R0", .REGISTER), ("R1", .REGISTER), ("R2", .REGISTER),
   ("R3", .REGISTER), ("R4", .REGISTER), ("R5", .REGISTER),
   ("R6", .REGISTER), ("R7", .REGISTER)]

/-- lexer.go `scanWhile`: unconditionally take the first rune (rune 0 at
end of input), then keep taking while the predicate holds. -/
def scanWhile (p : Char → Bool) (t : Token) (cs : List Char) :
    (Token × String) × List Char :=
  match cs with
  | [] => ((t, String.mk [eofChar]), [])
  | c :: rest => ((t, String.mk (c :: rest.takeWhile p)), rest.dropWhile p)

/-- Identifier continuation characters (letter, digit or underscore). -/
def isIdentChar (ch : Char) : Bool := isLetter ch || isDigit ch || ch == '_'

/-- lexer.go `scanIdent`: greedy identifier, upper-cased for the keyword
lookup. -/
def scanIdent (cs : List Char) : (Token × String) × List Char :=
  match cs with
  | [] => ((.IDENT, String.mk [eofChar]), [])
  | c :: rest =>
    let st := String.mk (c :: rest.takeWhile isIdentChar)
    let rest' := rest.dropWhile isIdentChar
    match keywords.lookup (toUpperStr st) with
    | some t => ((t, st), rest')
    | none => ((.IDENT, st), rest')

/-- lexer.go `scanNumber` loop: accepts hex digits throughout, plus an
`x` in the second position when the first character was `0`. -/
def scanNumberLoop (firstZero : Bool) (count : Nat) (acc : List Char) :
    List Char → String × List Char
  | [] => (String.mk acc.reverse, [])
  | ch :: rest =>
    if isHexDigit ch || (firstZero && count == 1 && ch == 'x') then
      scanNumberLoop firstZero (count + 1) (ch :: acc) rest
    else
      (String.mk acc.reverse, ch :: rest)

/-- lexer.go `scanNumber`. -/
def scanNumber (cs : List Char) : (Token × String) × List Char :=
  match cs with
  | [] => ((.NUMBER, ""), [])
  | c :: rest =>
    let (lit, rest') := scanNumberLoop (c == '0') 1 [c] rest
    ((.NUMBER, lit), rest')

/-- lexer.go `scanStringLiteral` loop (opening quote already consumed):
verbatim until the closing quote; end of input makes it ILLEGAL. -/
def scanStringLoop (acc : List Char) : List Char → (Token × String) × List Char
  | [] => ((.ILLEGAL, String.mk acc.reverse), [])
  | '\"' :: rest => ((.STRING, String.mk acc.reverse), rest)
  | ch :: rest => scanStringLoop (ch :: acc) rest

/-- lexer.go `innerScan`: one token from the head of the character
stream. -/
def innerScan (cs : List Char) : (Token × String) × List Char :=
  match cs with
  | [] => ((.EOF, ""), [])
  | ch :: rest =>
    if isWhitespace ch then scanWhile isWhitespace .WS cs
    else if isLetter ch || ch == '_' then scanIdent cs
    else if isDigit ch then scanNumber cs
    else
      match ch with
      | '.' => ((.DOT, String.mk [ch]), rest)
      | '#' => ((.HASH, String.mk [ch]), rest)
      | ':' => ((.COLON, String.mk [ch]), rest)
      | ',' => ((.COMMA, String.mk [ch]), rest)
      | '[' => ((.LBRAC, String.mk [ch]), rest)
      | ']' => ((.RBRAC, String.mk [ch]), rest)
      | '\x7b' => ((.LBRACE, String.mk [ch]), rest)
      | '\x7d' => ((.RBRACE, String.mk [ch]), rest)
      | '(' => ((.LPAREN, String.mk [ch]), rest)
      | ')' => ((.RPAREN, String.mk [ch]), rest)
      | '\n' => ((.NEWLINE, String.mk [ch]), rest)
      | '+' => ((.PLUS, String.mk [ch]), rest)
      | '-' => ((.MINUS, String.mk [ch]), rest)
      | '*' => ((.TIMES, String.mk [ch]), rest)
      | '/' => ((.DIVIDE, String.mk [ch]), rest)
      | '&' => ((.AND, String.mk [ch]), rest)
      | '|' => ((.OR, String.mk [ch]), rest)
      | '^' => ((.XOR, String.mk [ch]), rest)
      | '~' => ((.NOT, String.mk [ch]), rest)
      | '<' =>
        match rest with
        | next :: r2 =>
          if next == '<' then ((.LANGLES, "<<"), r2)
          else ((.ILLEGAL, String.mk [ch, next]), r2)
        | [] => ((.ILLEGAL, String.mk [ch, eofChar]), [])
      | '>' =>
        match rest with
        | next :: r2 =>
          if next == '>' then ((.RANGLES, ">>"), r2)
          else ((.ILLEGAL, String.mk [ch, next]), r2)
        | [] => ((.ILLEGAL, String.mk [ch, eofChar]), [])
      | ';' => scanWhile (fun c => c != '\n') .WS rest
      | '\"' => scanStringLoop [] rest
      | _ => ((.ILLEGAL, String.mk [ch]), rest)

/-- Repeated `innerScan` until end of input.  The Go parser pulls tokens
on demand; since the scanner is a deterministic function of the remaining
characters, pre-tokenizing is equivalent.  Each scan of a nonempty stream
consumes at least one character, so `cs.length + 1` rounds suffice. -/
def tokenizeLoop : Nat → List Char → List (Token × String)
  | 0, _ => []
  | n + 1, cs =>
    match cs with
    | [] => []
    | _ :: _ =>
      let ((t, lit), rest) := innerScan cs
      (t, lit) :: tokenizeLoop n rest

/-- Tokenize a whole character stream. -/
def tokenize (cs : List Char) : List (Token × String) :=
  tokenizeLoop (cs.length + 1) cs

/-- Tokenize a source string. -/
def tokenizeStr (src : String) : List (Token × String) := tokenize src.data

/-- parser.go `Parser`: remaining token stream plus the single-slot
pushback buffer (`buf.tok`/`buf.lit` is `last`, `buf.n` is `buffered`). -/
structure PState where
  rest : List (Token × String)
  last : Token × String
  buffered : Bool
deriving DecidableEq, Repr

/-- A fresh parser over a token stream (Go zero-valued buffer). -/
def initPState (toks : List (Token × String)) : PState :=
  ⟨toks, (.ILLEGAL, ""), false⟩

/-- parser.go `scan`: buffered token if present, else the next scanner
token (EOF forever at end of input), remembered for `unscan`. -/
def PState.scan (p : PState) : (Token × String) × PState :=
  if p.buffered then (p.last, { p with buffered := false })
  else
    match p.rest with
    | [] => ((.EOF, ""), { p with last := (.EOF, "") })
    | t :: ts => (t, { rest := ts, last := t, buffered := false })

/-- parser.go `unscan`. -/
def PState.unscan (p : PState) : PState := { p with buffered := true }

/-- Fuel loop of parser.go (later draft) `scanIgnoreWhitespace`
(`for tok == WS`). -/
def scanSkipWS : Nat → PState → (Token × String) × PState
  | 0, p => p.scan
  | n + 1, p =>
    let (t, p') := p.scan
    if t.1 == .WS then scanSkipWS n p' else (t, p')

/-- parser.go (later draft) `scanIgnoreWhitespace`: skip WS tokens but
never NEWLINE. -/
def PState.scanIgnoreWhitespace (p : PState) : (Token × String) × PState :=
  scanSkipWS (p.rest.length + 2) p

/-- Parse errors, one constructor per distinct `fmt.Errorf` site used by
the embedded parser functions; `wrap...` constructors model the
"context: %v" nesting. -/
inductive ParseError where
  | expectedDirective (t : Token)
  | unknownDirective (lit : String)
  | trailingGarbage (t : Token) (lit : String)
  | fillArity (n : Nat)
  | defineNoIdent (t : Token)
  | defineNoComma
  | badNumber (lit : String)
  | mismatchedChain (exprs ops : Nat)
  | nonAdditiveOp (t : Token)
  | nonMultiplicativeOp (t : Token)
  | expectedRParen (t : Token) (lit : String)
  | foundWhileParsingExpr (t : Token)
  | emptyExprList
  | unexpectedToken (t : Token)
  | wrapDat (e : ParseError)
  | wrapOrg (e : ParseError)
  | wrapFill (e : ParseError)
  | wrapReserve (e : ParseError)
  | wrapDefine (e : ParseError)
  | bracketedSubexpr (e : ParseError)
  | outOfFuel
deriving DecidableEq, Repr

/-- Go `strconv.ParseInt` digit value for a given base. -/
def digitVal (base : Nat) (c : Char) : Option Nat :=
  let v :=
    if isDigit c then some (c.toNat - '0'.toNat)
    else if decide ('a' ≤ c) && decide (c ≤ 'f') then
      some (10 + c.toNat - 'a'.toNat)
    else if decide ('A' ≤ c) && decide (c ≤ 'F') then
      some (10 + c.toNat - 'A'.toNat)
    else none
  match v with
  | some d => if d < base then some d else none
  | none => none

/-- Accumulate digits of a given base. -/
def digitsVal (base : Nat) : List Char → Nat → Option Nat
  | [], acc => some acc
  | c :: rest, acc =>
    match digitVal base c with
    | some d => digitsVal base rest (acc * base + d)
    | none => none

/-- Go `strconv.ParseInt(lit, 0, 0)` on the (sign-free) literals the
scanner can produce: `0x`/`0X` hexadecimal, `0b`/`0B` binary, `0o`/`0O`
octal, a bare leading `0` legacy octal, else decimal; `none` on an empty
or malformed literal or on `int` overflow. -/
def parseIntBase0 (s : String) : Option Nat :=
  let core :=
    match s.data with
    | [] => none
    | ['0'] => some 0
    | '0' :: 'x' :: rest => if rest.isEmpty then none else digitsVal 16 rest 0
    | '0' :: 'X' :: rest => if rest.isEmpty then none else digitsVal 16 rest 0
    | '0' :: 'b' :: rest => if rest.isEmpty then none else digitsVal 2 rest 0
    | '0' :: 'B' :: rest => if rest.isEmpty then none else digitsVal 2 rest 0
    | '0' :: 'o' :: rest => if rest.isEmpty then none else digitsVal 8 rest 0
    | '0' :: 'O' :: rest => if rest.isEmpty then none else digitsVal 8 rest 0
    | '0' :: rest => digitsVal 8 rest 0
    | ds => digitsVal 10 ds 0
  match core with
  | some v => if v ≤ 9223372036854775807 then some v else none
  | none => none

namespace V2

/-- parser.go (later draft) `consume`: take the next non-WS token if it
matches, else push it back. -/
def consume (t : Token) (p : PState) : Bool × PState :=
  let ((tok, _), p') := p.scanIgnoreWhitespace
  if tok == t then (true, p') else (false, p'.unscan)

/-- parser.go `consumeComma`. -/
def consumeComma (p : PState) : Bool × PState := consume .COMMA p

/-- parser.go (later draft) `parseAddOp`: `+ - | ^`, pushing back
anything else. -/
def parseAddOp (p : PState) : Except ParseError Token × PState :=
  let ((tok, _), p') := p.scanIgnoreWhitespace
  match tok with
  | .PLUS => (.ok tok, p')
  | .MINUS => (.ok tok, p')
  | .OR => (.ok tok, p')
  | .XOR => (.ok tok, p')
  | _ => (.error (.nonAdditiveOp tok), p'.unscan)

/-- parser.go (later draft) `parseMulOp`: `* / &`, pushing back anything
else. -/
def parseMulOp (p : PState) : Except ParseError Token × PState :=
  let ((tok, _), p') := p.scanIgnoreWhitespace
  match tok with
  | .TIMES => (.ok tok, p')
  | .DIVIDE => (.ok tok, p')
  | .AND => (.ok tok, p')
  | _ => (.error (.nonMultiplicativeOp tok), p'.unscan)

/-- Collection loop of parser.go (later draft) `parseOperatorChain`:
subexpressions separated by operators, stopping at the first failure of
either (the failing parse's state, including its pushback, is kept, as
the Go parser mutates in place). -/
def chainLoop (sub : PState → Except ParseError Expression × PState)
    (op : PState → Except ParseError Token × PState) :
    Nat → PState → List Expression → List Token →
    List Expression × List Token × PState
  | 0, p, es, os => (es, os, p)
  | n + 1, p, es, os =>
    match sub p with
    | (.error _, p') => (es, os, p')
    | (.ok e, p') =>
      match op p' with
      | (.error _, p'') => (es ++ [e], os, p'')
      | (.ok o, p'') => chainLoop sub op n p'' (es ++ [e]) (os ++ [o])

/-- Left-associative reduction of parser.go `parseOperatorChain`:
`final = BinExpr(final, ops[i], exprs[i+1])`. -/
def reduceChain (acc : Expression) : List Token → List Expression → Expression
  | o :: os, e :: es => reduceChain (.BinExpr acc o e) os es
  | _, _ => acc

/-- parser.go (later draft) `parseOperatorChain`: collect, check one more
expression than operators, then reduce left-to-right. -/
def parseOperatorChain (sub : PState → Except ParseError Expression × PState)
    (op : PState → Except ParseError Token × PState) (p : PState) :
    Except ParseError Expression × PState :=
  match chainLoop sub op (p.rest.length + 2) p [] [] with
  | (es, os, p') =>
    if es.length == os.length + 1 then
      match es with
      | e0 :: erest => (.ok (reduceChain e0 os erest), p')
      | [] => (.error (.mismatchedChain 0 os.length), p')
    else
      (.error (.mismatchedChain es.length os.length), p')

/-- Unary-operator collection loop of parser.go (later draft)
`parseUnaryExpr` (`+ - ~` prefixes). -/
def collectUnary : Nat → PState → List Token × PState
  | 0, p => ([], p)
  | n + 1, p =>
    let ((tok, _), p') := p.scanIgnoreWhitespace
    if tok == .PLUS || tok == .MINUS || tok == .NOT then
      let (ops, p'') := collectUnary n p'
      (tok :: ops, p'')
    else
      ([], p'.unscan)

/-- Grammar level selector for the mutually recursive expression
functions of parser.go (later draft): `parseSimpleExpr` (`.simple`),
`parseMulExpr` (`.mul`), `parseUnaryExpr` (`.unary`), `parseTerm`
(`.term`). -/
inductive ExprLvl where
  | simple
  | mul
  | unary
  | term

/-- The four mutually recursive expression functions of parser.go (later
draft), indexed by grammar level and a recursion-depth fuel (the Go
recursion terminates because each descent below `term` consumes a `(`;
any fuel at least the recursion depth computes the same result). -/
def parseLevel : Nat → ExprLvl → PState → Except ParseError Expression × PState
  | 0, _, p => (.error .outOfFuel, p)
  | n + 1, .simple, p => parseOperatorChain (parseLevel n .mul) parseAddOp p
  | n + 1, .mul, p => parseOperatorChain (parseLevel n .unary) parseMulOp p
  | n + 1, .unary, p =>
    let (ops, p') := collectUnary (p.rest.length + 2) p
    match parseLevel n .term p' with
    | (.error e, p'') => (.error e, p'')
    | (.ok e, p'') => (.ok (ops.foldr (fun o acc => .UnaryExpr o acc) e), p'')
  | n + 1, .term, p =>
    let ((tok, lit), p') := p.scanIgnoreWhitespace
    match tok with
    | .IDENT => (.ok (.LabelUse lit ""), p')
    | .NUMBER =>
      match parseIntBase0 lit with
      | some v => (.ok (.Constant (v % 65536) ""), p')
      | none => (.error (.badNumber lit), p')
    | .LPAREN =>
      match parseLevel n .simple p' with
      | (.error e, p'') => (.error (.bracketedSubexpr e), p'')
      | (.ok sub, p'') =>
        let ((tok2, lit2), p3) := p''.scanIgnoreWhitespace
        if tok2 == .RPAREN then (.ok sub, p3)
        else (.error (.expectedRParen tok2 lit2), p3)
    | _ => (.error (.foundWhileParsingExpr tok), p'.unscan)

/-- parser.go (later draft) `parseSimpleExpr` (entry to the expression
grammar). -/
def parseSimpleExpr (p : PState) : Except ParseError Expression × PState :=
  parseLevel (4 * p.rest.length + 16) .simple p

/-- parser.go (later draft) `parseExpr`: a string literal expands to one
constant per character (`uint16` of the rune), anything else is a single
simple expression. -/
def parseExpr (p : PState) : Except ParseError (List Expression) × PState :=
  let ((tok, lit), p') := p.scanIgnoreWhitespace
  if tok == .STRING then
    (.ok (lit.data.map (fun c => Expression.Constant (c.toNat % 65536) "")), p')
  else
    match parseSimpleExpr p'.unscan with
    | (.ok e, p3) => (.ok [e], p3)
    | (.error err, p3) => (.error err, p3)

/-- Loop of parser.go `parseExprList`: items separated by commas. -/
def parseExprListLoop (allow : Bool) :
    Nat → PState → List Expression → Except ParseError (List Expression) × PState
  | 0, p, _ => (.error .outOfFuel, p)
  | n + 1, p, buf =>
    let step :=
      if allow then parseExpr p
      else
        match parseSimpleExpr p with
        | (.ok e, q) => (.ok [e], q)
        | (.error er, q) => (.error er, q)
    match step with
    | (.error e, q) => (.error e, q)
    | (.ok es, q) =>
      match consumeComma q with
      | (true, q') => parseExprListLoop allow n q' (buf ++ es)
      | (false, q') => (.ok (buf ++ es), q')

/-- parser.go `parseExprList`: at least one item. -/
def parseExprList (allow : Bool) (p : PState) :
    Except ParseError (List Expression) × PState :=
  match parseExprListLoop allow (p.rest.length + 2) p [] with
  | (.ok buf, q) =>
    if buf.isEmpty then (.error .emptyExprList, q) else (.ok buf, q)
  | (.error e, q) => (.error e, q)

/-- parser.go (later draft) `parseDirective`: DAT, ORG, FILL, RESERVE and
DEFINE; the directive word is read with plain `scan` (no whitespace
allowed after the dot), every directive line must end in NEWLINE.  Note
`RESERVE` constructs `FillBlock{&Constant{0, loc}, expr}` positionally,
i.e. `length := Constant 0` and `value := expr`. -/
def parseDirective (p : PState) : Except ParseError Assembled × PState :=
  let ((dir, lit), p) := p.scan
  if dir != .IDENT then (.error (.expectedDirective dir), p)
  else
    match toUpperStr lit with
    | "DAT" =>
      match parseExprList true p with
      | (.error e, q) => (.error (.wrapDat e), q)
      | (.ok args, q) =>
        match consume .NEWLINE q with
        | (true, q') => (.ok (.DatBlock args), q')
        | (false, q') =>
          let ((t, l), q'') := q'.scanIgnoreWhitespace
          (.error (.trailingGarbage t l), q'')
    | "ORG" =>
      match parseSimpleExpr p with
      | (.error e, q) => (.error (.wrapOrg e), q)
      | (.ok expr, q) =>
        match consume .NEWLINE q with
        | (true, q') => (.ok (.Org expr), q')
        | (false, q') =>
          let ((t, l), q'') := q'.scanIgnoreWhitespace
          (.error (.trailingGarbage t l), q'')
    | "FILL" =>
      match parseExprList false p with
      | (.error e, q) => (.error (.wrapFill e), q)
      | (.ok values, q) =>
        match values with
        | [v0, v1] =>
          match consume .NEWLINE q with
          | (true, q') => (.ok (.FillBlock v1 v0), q')
          | (false, q') =>
            let ((t, l), q'') := q'.scanIgnoreWhitespace
            (.error (.trailingGarbage t l), q'')
        | vs => (.error (.fillArity vs.length), q)
    | "RESERVE" =>
      match parseSimpleExpr p with
      | (.error e, q) => (.error (.wrapReserve e), q)
      | (.ok expr, q) =>
        match consume .NEWLINE q with
        | (true, q') => (.ok (.FillBlock (.Constant 0 "") expr), q')
        | (false, q') =>
          let ((t, l), q'') := q'.scanIgnoreWhitespace
          (.error (.trailingGarbage t l), q'')
    | "DEFINE" =>
      let ((t, name), p1) := p.scanIgnoreWhitespace
      if t != .IDENT then (.error (.defineNoIdent t), p1)
      else
        match consumeComma p1 with
        | (false, p2) => (.error .defineNoComma, p2)
        | (true, p2) =>
          match parseSimpleExpr p2 with
          | (.error e, q) => (.error (.wrapDefine e), q)
          | (.ok expr, q) =>
            match consume .NEWLINE q with
            | (true, q') => (.ok (.SymbolDef name expr), q')
            | (false, q') =>
              let ((t2, l2), q'') := q'.scanIgnoreWhitespace
              (.error (.trailingGarbage t2 l2), q'')
    | _ => (.error (.unknownDirective lit), p)

/-- The `DOT` branch of parser.go (later draft) `Parse`, applied to one
source line: skip whitespace, require the dot, then `parseDirective`. -/
def parseOneDirective (src : String) : Except ParseError Assembled :=
  let p := initPState (tokenizeStr src)
  let ((tok, _), p') := p.scanIgnoreWhitespace
  if tok == .DOT then (parseDirective p').1
  else .error (.unexpectedToken tok)

/-- Parse one expression from source text, as the expression grammar
entry point does. -/
def parseExprSrc (src : String) : Except ParseError Expression :=
  (parseSimpleExpr (initPState (tokenizeStr src))).1

/-- Parse and evaluate one expression of source text against a state:
`some v` when both parsing and evaluation succeed. -/
def evalExprSrc (src : String) (s : AssemblyState) : Option Nat :=
  match parseExprSrc src with
  | .ok e =>
    match e.Evaluate s with
    | .ok (v, _) => some v
    | .error _ => none
  | .error _ => none

end V2

namespace V1

/-- ast.go (earlier draft): the expression variants of the first draft —
constants and label uses only (no operator nodes exist in that draft). -/
inductive Expression where
  | Constant (value : Nat) (loc : String)
  | LabelUse (label : String) (loc : String)
deriving DecidableEq, Repr

/-- ast.go (earlier draft) `Location` methods. -/
def Expression.Location : Expression → String
  | .Constant _ loc => loc
  | .LabelUse _ loc => loc

/-- ast.go (earlier draft) `Evaluate`: a `LabelUse` whose name is not
defined sets `resolved = false` on the state and yields 0 instead of
aborting.  (This draft paired with an older two-result `lookup`; against
the repo's `lookup` triple its `defined` is the second component.)  The
state is returned alongside the value since the Go method mutates it
through the pointer. -/
def Expression.Evaluate : Expression → AssemblyState → Nat × AssemblyState
  | .Constant v _, s => (v, s)
  | .LabelUse label _, s =>
    match s.lookup label with
    | (value, defined, _) =>
      if !defined then (0, { s with resolved := false })
      else (value, s)

/-- ast.go (earlier draft) `checkLiteral`: textually identical to the
later draft's, but evaluation is total in this draft. -/
def checkLiteral (s : AssemblyState) (expr : Expression) (signed : Bool)
    (width : Nat) : Except Fault (Nat × AssemblyState) :=
  let (value, s) := expr.Evaluate s
  let loc := expr.Location
  if !signed then
    if value < 2 ^ width % 65536 then
      .ok (value, s)
    else
      .error (.asmError loc (.unsignedTooBig value width))
  else
    let mask := (2 ^ width + 65535) % 65536
    if (value ||| mask) == mask || (value ||| mask) == 0xffff then
      .ok (value, s)
    else
      .error (.asmError loc (.signedDoesNotFit value width))

/-- ast.go (earlier draft) `Arg` (same shape as the later draft's, over
this draft's expressions). -/
structure Arg where
  kind : Nat
  reg : Nat := 0
  lrpc : Bool := false
  lit : Option Expression := none
  label : Option Expression := none
deriving DecidableEq, Repr

/-- Dereferencing a nil `lit` field in Go is a nil-pointer panic. -/
def getExpr (e : Option Expression) : Except Fault Expression :=
  match e with
  | some e => .ok e
  | none => .error (.goPanic .nilPointer)

/-- Indexing `args[i]` in Go panics when out of range. -/
def getArg (args : List Arg) (i : Nat) : Except Fault Arg :=
  match args.get? i with
  | some a => .ok a
  | none => .error (.goPanic .indexOutOfRange)

/-- instructions.go (earlier draft) `format2Ops` table (MOV 0, CMP 1,
ADD 2, SUB 3); a missing key yields the Go zero value 0. -/
def format2Ops : List (String × Nat) :=
  [("MOV", 0), ("CMP", 1), ("ADD", 2), ("SUB", 3)]

/-- instructions.go (earlier draft) `opFormat2`: the immediate format
word `0x2000 | reg << 8 | op << 11 | offset` with an unsigned 8-bit
literal (the "3-bit prefix 001, 2-bit op, 3-bit register, 8-bit literal"
format). -/
def opFormat2 (loc opcode : String) (args : List Arg) (s : AssemblyState) :
    Except Fault AssemblyState := do
  let a0 ← getArg args 0
  let a1 ← getArg args 1
  let lit ← getExpr a1.lit
  let (offset, s) ← checkLiteral s lit false 8
  let op := (format2Ops.lookup opcode).getD 0
  s.push ((0x2000 ||| (((a0.reg <<< 8) ||| (((op <<< 11) ||| offset))))))

/-- instructions.go (earlier draft) `opMov`: register-register MOV
encodes as a shift by 0; register-literal MOV is format 2 with an
unsigned 8-bit literal; anything else is a fatal bad-arguments error. -/
def opMov (loc opcode : String) (args : List Arg) (s : AssemblyState) :
    Except Fault AssemblyState :=
  match args with
  | [a0, a1] =>
    if a0.kind == AT_REG && a1.kind == AT_REG then
      s.push (((a1.reg <<< 3) ||| a0.reg))
    else if a0.kind == AT_REG && a1.kind == AT_LITERAL then do
      let lit ← getExpr a1.lit
      let (v, s) ← checkLiteral s lit false 8
      s.push ((0x2000 ||| (((a0.reg <<< 8) ||| v))))
    else
      .error (.asmError loc (.badArguments "MOV"))
  | _ => .error (.asmError loc (.badArguments "MOV"))

/-- instructions.go (earlier draft) `opAddSub5` (`ADD Rd, PC/SP, #U8`). -/
def opAddSub5 (loc : String) (args : List Arg) (s : AssemblyState) :
    Except Fault AssemblyState := do
  let a0 ← getArg args 0
  let a1 ← getArg args 1
  let a2 ← getArg args 2
  let lit ← getExpr a2.lit
  let (offset, s) ← checkLiteral s lit false 8
  let sourceBit := if a1.kind == AT_PC then 0 else 0x0800
  s.push ((0x5000 ||| ((offset ||| ((sourceBit ||| (a0.reg <<< 8)))))))

/-- instructions.go (earlier draft) `opAddSub4` (three-argument
ADD/SUB with register or 3-bit literal third operand). -/
def opAddSub4 (loc opcode : String) (args : List Arg) (s : AssemblyState) :
    Except Fault AssemblyState := do
  let a0 ← getArg args 0
  let a1 ← getArg args 1
  let a2 ← getArg args 2
  let opBit := if opcode == "ADD" then 0 else 0x0200
  if a2.kind == AT_LITERAL then do
    let lit ← getExpr a2.lit
    let (b, s) ← checkLiteral s lit false 3
    s.push ((0x1800 ||| ((opBit ||| ((0x0400 ||| ((a0.reg ||| (((a1.reg <<< 3) ||| (b <<< 6)))))))))))
  else
    s.push ((0x1800 ||| ((opBit ||| ((a0.reg ||| (((a1.reg <<< 3) ||| (a2.reg <<< 6)))))))))

/-- instructions.go (earlier draft) `opAddSubSP` (`ADD/SUB SP, #U7`). -/
def opAddSubSP (loc opcode : String) (args : List Arg) (s : AssemblyState) :
    Except Fault AssemblyState := do
  let a1 ← getArg args 1
  let lit ← getExpr a1.lit
  let (offset, s) ← checkLiteral s lit false 7
  let subBit := if opcode == "ADD" then 0 else 0x0080
  s.push ((0xa800 ||| ((subBit ||| offset))))

/-- instructions.go (earlier draft) `opAddSub`: dispatch between format
5 (PC/SP base), format 4 (three arguments), SP adjustment and format 2
(`ADD Rd, #Imm`, the destination-is-accumulator form). -/
def opAddSub (loc opcode : String) (args : List Arg) (s : AssemblyState) :
    Except Fault AssemblyState :=
  match args with
  | [a0, a1, a2] =>
    if opcode == "ADD" && (a1.kind == AT_PC || a1.kind == AT_SP) then
      opAddSub5 loc [a0, a1, a2] s
    else if a0.kind == AT_REG && a1.kind == AT_REG &&
        (a2.kind == AT_REG || a2.kind == AT_LITERAL) then
      opAddSub4 loc opcode [a0, a1, a2] s
    else
      .error (.asmError loc (.badArguments opcode))
  | [a0, a1] =>
    if a0.kind == AT_SP && a1.kind == AT_LITERAL then
      opAddSubSP loc opcode [a0, a1] s
    else if a0.kind == AT_REG && a1.kind == AT_LITERAL then
      opFormat2 loc opcode [a0, a1] s
    else
      .error (.asmError loc (.badArguments opcode))
  | _ => .error (.asmError loc (.badArguments opcode))

end V1

/-- A zero assembly state after `reset` (fresh pass, nothing written). -/
def emptyState : AssemblyState := ⟨[], [], true, false, [], 0, []⟩

/-- A state whose label table holds one registered but not-yet-defined
label `l` (exactly what pre-collection produces), with `resolved = true`
as `reset` leaves it. -/
def cexState : AssemblyState := ⟨[("l", ⟨0, false⟩)], [], true, false, [], 0, []⟩

/-- The property "the upper bits of the 16-bit value `v`, from bit `low`
up to bit 15, are all 0 or all 1", the spec's wording for a value that
sign-extends cleanly. -/
def upperBitsAllZeroOrAllOne (v low : Nat) : Prop :=
  (∀ i, i < 16 → low ≤ i → v.testBit i = false) ∨
  (∀ i, i < 16 → low ≤ i → v.testBit i = true)

/-- The claim's signed-field acceptance predicate, exactly as worded:
the upper `16 - w + 1` bits (bits `w - 1` through 15) are all 0 or all 1. -/
def claimSignedFits (v w : Nat) : Prop := upperBitsAllZeroOrAllOne v (w - 1)

instance (v low : Nat) : Decidable (upperBitsAllZeroOrAllOne v low) := by
  unfold upperBitsAllZeroOrAllOne
  exact inferInstance

instance (v w : Nat) : Decidable (claimSignedFits v w) := by
  unfold claimSignedFits
  exact inferInstance

/-- A branch argument whose label expression is a constant target (as
produced after the label has resolved). -/
def labelArg (target : Nat) : V2.Arg :=
  { kind := AT_LABEL, label := some (.Constant target "") }

/-- The program `.ORG 0xfeff ; MOV r0, #l ; :l`.  The `MOV` encoder emits
one word when the value of `l` is ≤ 255 or > 0xff00 and two words
otherwise, while `l`'s address is the cursor after the `MOV` — so from
address 0xfeff the label oscillates between 0xff00 (one word, value 0 or
0xff01) and 0xff01 (two words, value 0xff00) forever. -/
def oscProgram : List V2.Assembled :=
  [.Org (.Constant 0xfeff ""),
   .Instruction "MOV"
     [{ kind := AT_REG, reg := 0 },
      { kind := AT_LITERAL, lit := some (.LabelUse "l" "") }] "",
   .LabelDef "l"]

/-- Two `.ORG 0` blocks each emitting one word at address 0 — the
colliding-regions program. -/
def orgClashProgram : List V2.Assembled :=
  [.Org (.Constant 0 ""), .DatBlock [.Constant 1 ""],
   .Org (.Constant 0 ""), .DatBlock [.Constant 2 ""]]

/-- Claim C7: `reset()` establishes exactly the per-pass initial state —
empty symbol table, empty used set, cursor 0, `dirty = false`,
`resolved = true` — while leaving the label table (and the ROM) entirely
unchanged, so labels persist across passes. -/
theorem C7_reset_frame (s : AssemblyState) :
    s.reset.labels = s.labels ∧ s.reset.symbols = [] ∧
    s.reset.used = [] ∧ s.reset.index = 0 ∧ s.reset.dirty = false ∧
    s.reset.resolved = true ∧ s.reset.rom = s.rom :=
  ⟨rfl, rfl, rfl, rfl, rfl, rfl, rfl⟩

/-- Claim C10: expression evaluation is not total — a division whose
right operand evaluates to 0 is a Go run-time divide-by-zero panic
(`Fault.goPanic`), not a produced value and not a located `asmError`. -/
theorem C10_divide_by_zero_panic :
    V2.Expression.Evaluate
      (.BinExpr (.Constant 1 "") .DIVIDE (.Constant 0 "")) emptyState =
    .error (.goPanic .divideByZero) := rfl

/-- Claim C9: under the immediate instruction format with a 3-bit prefix,
2-bit op, 3-bit register and 8-bit literal (the earlier draft's format 2,
encoded by `opMov` / `opFormat2` via `opAddSub`), `MOV r0, #5` encodes to
the single word 0x2005 and `ADD r0, #1` (destination-is-accumulator
form) encodes to the single word 0x3001. -/
theorem C9_immediate_format_examples :
    V1.opMov "" "MOV"
      [{ kind := AT_REG, reg := 0 },
       { kind := AT_LITERAL, lit := some (.Constant 5 "") }] emptyState =
      .ok { emptyState with rom := [(0, 0x2005)], used := [0], index := 1 } ∧
    V1.opAddSub "" "ADD"
      [{ kind := AT_REG, reg := 0 },
       { kind := AT_LITERAL, lit := some (.Constant 1 "") }] emptyState =
      .ok { emptyState with rom := [(0, 0x3001)], used := [0], index := 1 } :=
  ⟨rfl, rfl⟩

/-- Claim C8: the two-tier left-associative expression grammar with
modulo-2^16 arithmetic: `1 + 2 * 3` evaluates to 7, `(1 + 2) * 3` to 9,
`~0` to 0xFFFF, and `-1` to 0xFFFF (`0x10000 - 1` truncated). -/
theorem C8_expression_examples :
    V2.evalExprSrc "1 + 2 * 3" emptyState = some 7 ∧
    V2.evalExprSrc "(1 + 2) * 3" emptyState = some 9 ∧
    V2.evalExprSrc "~0" emptyState = some 0xffff ∧
    V2.evalExprSrc "-1" emptyState = some 0xffff :=
  ⟨rfl, rfl, rfl, rfl⟩

/-- Claim C6 (code bug): `.RESERVE 3` parses to
`FillBlock{length: Constant 0, value: 3}` — the positional composite
literal in `parseDirective` fills the struct fields in the wrong order —
so assembling it emits no words at all (the state is unchanged), while
`.FILL 0, 3` parses to `FillBlock{length: 3, value: Constant 0}` and
emits exactly three zero words.  The repo's own assembler guide says
`.reserve length` is shorthand for `.fill 0, length`. -/
theorem C6_reserve_emits_nothing :
    V2.parseOneDirective ".reserve 3\n" =
      .ok (.FillBlock (.Constant 0 "") (.Constant 3 "")) ∧
    V2.Assembled.Assemble (.FillBlock (.Constant 0 "") (.Constant 3 ""))
      emptyState = .ok emptyState ∧
    V2.parseOneDirective ".fill 0, 3\n" =
      .ok (.FillBlock (.Constant 3 "") (.Constant 0 "")) ∧
    V2.Assembled.Assemble (.FillBlock (.Constant 3 "") (.Constant 0 ""))
      emptyState =
      .ok { emptyState with rom := [(2, 0), (1, 0), (0, 0)]
                            used := [2, 1, 0]
                            index := 3 } :=
  ⟨by rfl, rfl, by rfl, rfl⟩

/-- Claim C5: `push(word)` raises the fatal "overlapping regions" error
when the cursor address was already written this pass; otherwise it marks
the address used, stores the word at the cursor, and advances the cursor
by exactly one (uint16 increment).  Consequently two `.ORG` blocks whose
emissions collide on an address abort assembly. -/
theorem C5_push_overlap_or_advance (s : AssemblyState) (x : Nat) :
    (s.index ∈ s.used →
      s.push x = .error (.goPanic (.overlappingRegions s.index))) ∧
    (s.index ∉ s.used →
      s.push x = .ok { s with used := s.index :: s.used
                              rom := (s.index, x) :: s.rom
                              index := (s.index + 1) % 65536 }) ∧
    V2.assembleLines orgClashProgram emptyState =
      .error (.goPanic (.overlappingRegions 0)) := by
  refine ⟨fun h => ?_, fun h => ?_, rfl⟩
  · simp [AssemblyState.push, h]
  · simp [AssemblyState.push, h, add16]

/-- Witness for C5 at concrete inputs: a state that already used address
5 overlaps, a fresh state stores and advances. -/
theorem C5_push_overlap_or_advance_witness :
    (⟨[], [], true, false, [], 5, [5]⟩ : AssemblyState).push 7 =
      .error (.goPanic (.overlappingRegions 5)) ∧
    emptyState.push 7 =
      .ok { emptyState with used := [0], rom := [(0, 7)], index := 1 } := by
  constructor
  · exact (C5_push_overlap_or_advance ⟨[], [], true, false, [], 5, [5]⟩ 7).1
      (by decide)
  · exact (C5_push_overlap_or_advance emptyState 7).2.1 (by decide)

/-- Claim C1, counterexample to the claim as stated: evaluating a name
that is not defined at that moment (here `l`, registered by
pre-collection but with `defined = false`) does not set `resolved` to
false — the later draft's `LabelUse.Evaluate` returns the entry's value 0
and leaves the state unchanged, `resolved` still `true`. -/
theorem C1_counterexample :
    V2.Expression.Evaluate (.LabelUse "l" "") cexState = .ok (0, cexState) ∧
    cexState.resolved = true :=
  ⟨rfl, rfl⟩

/-- Claim C1 as amended: in the later draft, evaluating a `LabelUse`
whose name is present in the label or symbol table returns that entry's
current value (0 for a label not yet assigned) without aborting and
without modifying any state, in particular `resolved`; a name absent from
both tables aborts assembly fatally with the "Unknown label" error.
Only the earlier draft's `Evaluate` set `resolved = false`. -/
theorem C1_undefined_lookup_behavior (name loc : String) (s : AssemblyState) :
    ((s.lookup name).2.2 = true →
      V2.Expression.Evaluate (.LabelUse name loc) s =
        .ok ((s.lookup name).1, s)) ∧
    ((s.lookup name).2.2 = false →
      V2.Expression.Evaluate (.LabelUse name loc) s =
        .error (.asmError loc (.unknownLabel name))) := by
  constructor <;> intro h <;>
    simp [V2.Expression.Evaluate] <;> rcases hl : s.lookup name with ⟨v, d, k⟩ <;>
    rw [hl] at h <;> simp_all

/-- Witness for C1's amended theorem: the registered-but-undefined label
of `cexState` evaluates to 0 with the state untouched; an entirely
unknown name is the fatal "Unknown label" error. -/
theorem C1_undefined_lookup_behavior_witness :
    V2.Expression.Evaluate (.LabelUse "l" "") cexState = .ok (0, cexState) ∧
    V2.Expression.Evaluate (.LabelUse "m" "") emptyState =
      .error (.asmError "" (.unknownLabel "m")) :=
  ⟨(C1_undefined_lookup_behavior "l" "" cexState).1 rfl,
   (C1_undefined_lookup_behavior "m" "" emptyState).2 rfl⟩

/-- Powers of two below width 16 stay below 65536. -/
theorem pow16_lt {w : Nat} (hw : w < 16) : 2 ^ w < 65536 := by
  calc 2 ^ w < 2 ^ 16 := Nat.pow_lt_pow_right (by norm_num) hw
  _ = 65536 := by norm_num

/-- The upper bits (from `k` through 15) of a 16-bit value are all zero
exactly when the value is below `2 ^ k`. -/
theorem upper_zero_iff (v k : Nat) (hv : v < 65536) :
    (∀ i, i < 16 → k ≤ i → v.testBit i = false) ↔ v < 2 ^ k := by
  constructor
  · intro h
    apply Nat.lt_pow_two_of_testBit
    intro i hi
    by_cases h16 : i < 16
    · exact h i h16 hi
    · refine Nat.testBit_lt_two_pow (lt_of_lt_of_le hv ?_)
      calc (65536 : Nat) = 2 ^ 16 := by norm_num
      _ ≤ 2 ^ i := Nat.pow_le_pow_right (by norm_num) (by omega)
  · intro h i _ hk
    exact Nat.testBit_lt_two_pow
      (lt_of_lt_of_le h (Nat.pow_le_pow_right (by norm_num) hk))

/-- The upper bits (from `k` through 15) of a 16-bit value are all one
exactly when the value is at least `65536 - 2 ^ k`. -/
theorem upper_one_iff (v k : Nat) (hv : v < 65536) (hk : k ≤ 16) :
    (∀ i, i < 16 → k ≤ i → v.testBit i = true) ↔ 65536 - 2 ^ k ≤ v := by
  have hp : 2 ^ (16 - k) * 2 ^ k = 65536 := by
    rw [← Nat.pow_add]
    have h16 : 16 - k + k = 16 := by omega
    rw [h16]
  have h2k : 0 < 2 ^ k := Nat.pos_pow_of_pos k (by norm_num)
  have hsub : (2 ^ (16 - k) - 1) * 2 ^ k = 65536 - 2 ^ k := by
    rw [Nat.sub_mul, hp, one_mul]
  constructor
  · intro h
    have hhi_lt : v / 2 ^ k < 2 ^ (16 - k) := by
      rw [Nat.div_lt_iff_lt_mul h2k, hp]
      exact hv
    have hhi_eq : v / 2 ^ k = 2 ^ (16 - k) - 1 := by
      apply Nat.eq_of_testBit_eq
      intro j
      by_cases hj : j < 16 - k
      · have hb : (v / 2 ^ k).testBit j = v.testBit (k + j) := by
          rw [← Nat.shiftRight_eq_div_pow, Nat.testBit_shiftRight]
        rw [hb, Nat.testBit_two_pow_sub_one, h (k + j) (by omega) (by omega)]
        simp [hj]
      · have hfalse : (v / 2 ^ k).testBit j = false :=
          Nat.testBit_lt_two_pow (lt_of_lt_of_le hhi_lt
            (Nat.pow_le_pow_right (by norm_num) (by omega)))
        rw [hfalse, Nat.testBit_two_pow_sub_one]
        simp [hj]
    have hmul : v / 2 ^ k * 2 ^ k ≤ v := Nat.div_mul_le_self v (2 ^ k)
    rw [hhi_eq, hsub] at hmul
    exact hmul
  · intro h i h16 hki
    have hhi_ge : 2 ^ (16 - k) - 1 ≤ v / 2 ^ k := by
      rw [Nat.le_div_iff_mul_le h2k, hsub]
      exact h
    have hhi_lt : v / 2 ^ k < 2 ^ (16 - k) := by
      rw [Nat.div_lt_iff_lt_mul h2k, hp]
      exact hv
    have hhi_eq : v / 2 ^ k = 2 ^ (16 - k) - 1 := by omega
    have hb : v.testBit i = (v / 2 ^ k).testBit (i - k) := by
      rw [← Nat.shiftRight_eq_div_pow, Nat.testBit_shiftRight]
      congr 1
      omega
    rw [hb, hhi_eq, Nat.testBit_two_pow_sub_one]
    simp only [decide_eq_true_eq]
    omega

/-- Oring a value with the low mask `2 ^ w - 1` reproduces the mask
exactly when the value fits in `w` bits. -/
theorem lor_mask_eq_mask_iff (v w : Nat) (hw : w < 16) :
    (v ||| (2 ^ w - 1)) = 2 ^ w - 1 ↔ v < 2 ^ w := by
  constructor
  · intro h
    apply Nat.lt_pow_two_of_testBit
    intro i hi
    have hcongr := congrArg (fun x => Nat.testBit x i) h
    simp only [Nat.testBit_or, Nat.testBit_two_pow_sub_one] at hcongr
    have hd : decide (i < w) = false := by simp; omega
    rw [hd] at hcongr
    simpa using hcongr
  · intro h
    apply Nat.eq_of_testBit_eq
    intro i
    simp only [Nat.testBit_or, Nat.testBit_two_pow_sub_one]
    by_cases hi : i < w
    · simp [hi]
    · have hfalse : v.testBit i = false := Nat.testBit_lt_two_pow
        (lt_of_lt_of_le h (Nat.pow_le_pow_right (by norm_num) (by omega)))
      simp [hfalse, hi]

/-- Oring a 16-bit value with the low mask `2 ^ w - 1` yields all ones
exactly when the value's upper `16 - w` bits are all one. -/
theorem lor_mask_eq_allones_iff (v w : Nat) (hv : v < 65536) (hw : w < 16) :
    (v ||| (2 ^ w - 1)) = 65535 ↔ 65536 - 2 ^ w ≤ v := by
  constructor
  · intro h
    rw [← upper_one_iff v w hv (by omega)]
    intro i h16 hwi
    have hcongr := congrArg (fun x => Nat.testBit x i) h
    have h65535 : (65535 : Nat) = 2 ^ 16 - 1 := by norm_num
    simp only [h65535, Nat.testBit_or, Nat.testBit_two_pow_sub_one] at hcongr
    have hd : decide (i < w) = false := by simp; omega
    have hd16 : decide (i < 16) = true := by simp; omega
    rw [hd, hd16] at hcongr
    simpa using hcongr
  · intro h
    have hbits := (upper_one_iff v w hv (by omega)).2 h
    apply Nat.eq_of_testBit_eq
    intro i
    have h65535 : (65535 : Nat) = 2 ^ 16 - 1 := by norm_num
    simp only [h65535, Nat.testBit_or, Nat.testBit_two_pow_sub_one]
    by_cases h16 : i < 16
    · by_cases hi : i < w
      · simp [hi, h16]
      · rw [hbits i h16 (by omega)]
        simp [h16]
    · have hfalse : v.testBit i = false := by
        refine Nat.testBit_lt_two_pow (lt_of_lt_of_le hv ?_)
        calc (65536 : Nat) = 2 ^ 16 := by norm_num
        _ ≤ 2 ^ i := Nat.pow_le_pow_right (by norm_num) (by omega)
      have hd : decide (i < w) = false := by simp; omega
      simp [hfalse, hd, h16]

/-- Arithmetic form of the upper-bits-homogeneous property: below `2 ^ w`
or at least `65536 - 2 ^ w`. -/
theorem upperBits_iff (v w : Nat) (hv : v < 65536) (hw : w < 16) :
    upperBitsAllZeroOrAllOne v w ↔ (v < 2 ^ w ∨ 65536 - 2 ^ w ≤ v) := by
  unfold upperBitsAllZeroOrAllOne
  rw [upper_zero_iff v w hv, upper_one_iff v w hv (by omega)]

/-- Reduction of `checkLiteral` on an already-constant expression. -/
theorem checkLiteral_const (s : AssemblyState) (v : Nat) (loc : String)
    (signed : Bool) (w : Nat) :
    V2.checkLiteral s (.Constant v loc) signed w =
      if !signed then
        if v < 2 ^ w % 65536 then .ok (v, s)
        else .error (.asmError loc (.unsignedTooBig v w))
      else
        if ((v ||| ((2 ^ w + 65535) % 65536)) == (2 ^ w + 65535) % 65536 ||
            (v ||| ((2 ^ w + 65535) % 65536)) == 0xffff) then .ok (v, s)
        else .error (.asmError loc (.signedDoesNotFit v w)) := rfl

/-- Claim C3, counterexample to the claim's signed condition as stated:
for a signed 5-bit field, `checkLiteral` accepts the value 16, whose
upper `16 - 5 + 1 = 12` bits (bits 4 through 15) are neither all 0 nor
all 1 — the code checks only the upper `16 - w` bits. -/
theorem C3_counterexample :
    V2.checkLiteral emptyState (.Constant 16 "") true 5 =
      .ok (16, emptyState) ∧ ¬ claimSignedFits 16 5 :=
  ⟨rfl, by decide⟩

/-- Claim C3 as amended: for a literal checked against a field of width
`w`: an unsigned field accepts exactly the values in `[0, 2^w)` and any
other value is the fatal range error citing the value and the width; a
signed field accepts exactly the values whose upper `16 - w` bits are all
0 or all 1 (the values that sign-extend cleanly from `w + 1` bits), and
any other value is the fatal signed range error citing the value and the
width. -/
theorem C3_checkLiteral_ranges (v w : Nat) (loc : String) (s : AssemblyState)
    (hv : v < 65536) (hw : w < 16) :
    (v < 2 ^ w → V2.checkLiteral s (.Constant v loc) false w = .ok (v, s)) ∧
    (¬ v < 2 ^ w → V2.checkLiteral s (.Constant v loc) false w =
        .error (.asmError loc (.unsignedTooBig v w))) ∧
    (upperBitsAllZeroOrAllOne v w →
        V2.checkLiteral s (.Constant v loc) true w = .ok (v, s)) ∧
    (¬ upperBitsAllZeroOrAllOne v w →
        V2.checkLiteral s (.Constant v loc) true w =
        .error (.asmError loc (.signedDoesNotFit v w))) := by
  have hpow := pow16_lt hw
  have hmod : 2 ^ w % 65536 = 2 ^ w := Nat.mod_eq_of_lt hpow
  have hpos : 0 < 2 ^ w := Nat.pos_pow_of_pos w (by norm_num)
  have hmask : (2 ^ w + 65535) % 65536 = 2 ^ w - 1 := by omega
  have hup := upperBits_iff v w hv hw
  refine ⟨fun h => ?_, fun h => ?_, fun h => ?_, fun h => ?_⟩ <;>
    rw [checkLiteral_const] <;> simp only [Bool.not_false, Bool.not_true,
      if_true, if_false, hmod, hmask]
  · rw [if_pos h]
  · rw [if_neg h]
  · rcases hup.mp h with hc | hc
    · have hr : (v ||| (2 ^ w - 1)) = 2 ^ w - 1 :=
        (lor_mask_eq_mask_iff v w hw).2 hc
      simp [hr]
    · have hr : (v ||| (2 ^ w - 1)) = 65535 :=
        (lor_mask_eq_allones_iff v w hv hw).2 hc
      simp [hr]
  · have h1 : ¬ v < 2 ^ w := fun hc => h (hup.mpr (Or.inl hc))
    have h2 : ¬ 65536 - 2 ^ w ≤ v := fun hc => h (hup.mpr (Or.inr hc))
    have e1 : ¬ (v ||| (2 ^ w - 1)) = 2 ^ w - 1 := by
      rw [lor_mask_eq_mask_iff v w hw]
      exact h1
    have e2 : ¬ (v ||| (2 ^ w - 1)) = 65535 := by
      rw [lor_mask_eq_allones_iff v w hv hw]
      exact h2
    simp [e1, e2]

/-- Witness for C3's amended theorem at the widths the spec tests:
255 fits the unsigned 8-bit field, 256 is the range error citing width 8;
0xffe0 sign-extends over a 6-bit field, 512 is the signed range error. -/
theorem C3_checkLiteral_ranges_witness :
    V2.checkLiteral emptyState (.Constant 255 "") false 8 =
      .ok (255, emptyState) ∧
    V2.checkLiteral emptyState (.Constant 256 "") false 8 =
      .error (.asmError "" (.unsignedTooBig 256 8)) ∧
    V2.checkLiteral emptyState (.Constant 0xffe0 "") true 6 =
      .ok (0xffe0, emptyState) ∧
    V2.checkLiteral emptyState (.Constant 512 "") true 8 =
      .error (.asmError "" (.signedDoesNotFit 512 8)) :=
  ⟨(C3_checkLiteral_ranges 255 8 "" emptyState (by decide) (by decide)).1
     (by decide),
   (C3_checkLiteral_ranges 256 8 "" emptyState (by decide) (by decide)).2.1
     (by decide),
   (C3_checkLiteral_ranges 0xffe0 6 "" emptyState (by decide) (by decide)).2.2.1
     (by decide),
   (C3_checkLiteral_ranges 512 8 "" emptyState (by decide) (by decide)).2.2.2
     (by decide)⟩

/-- Reduction of `opBranch` on a single label argument with an
already-constant target. -/
theorem opBranch_reduce (loc mn : String) (opcode target : Nat)
    (s : AssemblyState) :
    V2.opBranch loc mn opcode [labelArg target] s =
      (if sub16 target (add16 s.index 1) != 0xffff &&
          (decide (sub16 target (add16 s.index 1) < 256) ||
           decide (neg16 (sub16 target (add16 s.index 1)) ≤ 256)) then
        s.push (0xa000 ||| ((opcode <<< 9) |||
          (sub16 target (add16 s.index 1) &&& 0x1ff)))
      else do
        let s' ← s.push (0xa000 ||| ((opcode <<< 9) ||| 0x1ff))
        s'.push target) := rfl

/-- Claim C4: for every relative branch (`B`/`BL` and the conditional
branches all dispatch through `opBranch` via the `branchInstructions`
table) with `diff = target - (address after the instruction)` (uint16):
if `diff` fits the signed 9-bit offset range (below 256 or at least
0xff00 as a uint16) and is not the reserved -1, exactly one word is
emitted whose 9-bit offset field carries `diff` (mod 512) — and that
field is never the all-ones 511; otherwise exactly two words are
emitted, the first with the all-ones sentinel offset 511 and the second
holding the raw 16-bit target.  A `diff` of -1 (0xffff) is forced to the
long form even though it fits the signed range. -/
theorem C4_branch_short_long (mn loc : String) (opcode target : Nat)
    (s : AssemblyState) (ht : target < 65536) (hi : s.index < 65536)
    (hu : s.used = []) :
    (sub16 target (add16 s.index 1) ≠ 0xffff ∧
        (sub16 target (add16 s.index 1) < 256 ∨
         0xff00 ≤ sub16 target (add16 s.index 1)) →
      ∃ s', V2.opBranch loc mn opcode [labelArg target] s = .ok s' ∧
        s'.rom = (s.index,
          (0xa000 ||| ((opcode <<< 9) |||
            (sub16 target (add16 s.index 1) % 512)))) :: s.rom ∧
        sub16 target (add16 s.index 1) % 512 ≠ 511 ∧
        s'.index = (s.index + 1) % 65536) ∧
    (¬ (sub16 target (add16 s.index 1) ≠ 0xffff ∧
        (sub16 target (add16 s.index 1) < 256 ∨
         0xff00 ≤ sub16 target (add16 s.index 1))) →
      ∃ s', V2.opBranch loc mn opcode [labelArg target] s = .ok s' ∧
        s'.rom = ((s.index + 1) % 65536, target) ::
          (s.index, (0xa000 ||| ((opcode <<< 9) ||| 511))) :: s.rom ∧
        s'.index = (s.index + 2) % 65536) := by
  have hdlt : sub16 target (add16 s.index 1) < 65536 := by
    unfold sub16
    omega
  set d := sub16 target (add16 s.index 1) with hd
  have hand : d &&& 511 = d % 512 := by
    have h511 : (511 : Nat) = 2 ^ 9 - 1 := by norm_num
    rw [h511, Nat.and_pow_two_sub_one_eq_mod]
  constructor
  · rintro ⟨h1, h2⟩
    have hcond : (d != 0xffff &&
        (decide (d < 256) || decide (neg16 d ≤ 256))) = true := by
      simp only [bne_iff_ne, ne_eq, Bool.and_eq_true, Bool.or_eq_true,
        decide_eq_true_eq]
      refine ⟨h1, ?_⟩
      rcases h2 with h | h
      · left
        exact h
      · right
        unfold neg16
        omega
    rw [opBranch_reduce, hcond]
    simp only [if_true]
    refine ⟨{ s with used := [s.index]
                     rom := (s.index, (0xa000 ||| ((opcode <<< 9) |||
                       (d &&& 511)))) :: s.rom
                     index := add16 s.index 1 }, ?_, ?_, ?_, ?_⟩
    · simp [AssemblyState.push, hu]
    · simp [hand]
    · omega
    · simp [add16]
  · intro h
    have hcond : ¬ (d != 0xffff &&
        (decide (d < 256) || decide (neg16 d ≤ 256))) = true := by
      intro hc
      apply h
      simp only [bne_iff_ne, ne_eq, Bool.and_eq_true, Bool.or_eq_true,
        decide_eq_true_eq] at hc
      obtain ⟨hc1, hc2⟩ := hc
      refine ⟨hc1, ?_⟩
      rcases hc2 with hcc | hcc
      · left
        exact hcc
      · unfold neg16 at hcc
        omega
    rw [opBranch_reduce, if_neg hcond]
    have hne : add16 s.index 1 ≠ s.index := by
      unfold add16
      omega
    refine ⟨{ s with used := [add16 s.index 1, s.index]
                     rom := (add16 s.index 1, target) ::
                       (s.index, (0xa000 ||| ((opcode <<< 9) ||| 511))) :: s.rom
                     index := add16 (add16 s.index 1) 1 }, ?_, ?_, ?_⟩
    · simp [AssemblyState.push, hu, hne, bind, Except.bind]
    · simp [add16]
    · show (add16 (add16 s.index 1) 1) = (s.index + 2) % 65536
      unfold add16
      omega

/-- Witness for C4 at concrete inputs: a branch from address 0 to target
10 emits the single short word 0xa009 (offset field 9); a branch to
target 0 has `diff = -1` and is forced to the two-word long form with the
0x1ff sentinel and the raw target. -/
theorem C4_branch_short_long_witness :
    (∃ s', V2.opBranch "" "B" 0 [labelArg 10] emptyState = .ok s' ∧
      s'.rom = [(0, 0xa009)]) ∧
    (∃ s', V2.opBranch "" "B" 0 [labelArg 0] emptyState = .ok s' ∧
      s'.rom = [(1, 0), (0, 0xa1ff)]) := by
  constructor
  · obtain ⟨s', h1, h2, h3, h4⟩ :=
      (C4_branch_short_long "B" "" 0 10 emptyState (by decide) (by decide)
        rfl).1 (by decide)
    refine ⟨s', h1, ?_⟩
    rw [h2]
    decide
  · obtain ⟨s', h1, h2, h3⟩ :=
      (C4_branch_short_long "B" "" 0 0 emptyState (by decide) (by decide)
        rfl).2 (by decide)
    refine ⟨s', h1, ?_⟩
    rw [h2]
    decide

/-- Unrolling iterated passes from the back: `n + 1` passes are `n`
passes followed by one more. -/
theorem runPasses_succ (lines : List V2.Assembled) (n : Nat)
    (s : AssemblyState) :
    V2.runPasses lines (n + 1) s =
      (V2.runPasses lines n s).bind (V2.onePass lines) := by
  induction n generalizing s with
  | zero =>
    cases h : V2.onePass lines s <;>
      simp [V2.runPasses, h, bind, Except.bind]
  | succ m ih =>
    cases h : V2.onePass lines s with
    | error e => simp [V2.runPasses, h, bind, Except.bind]
    | ok t =>
      have h1 : V2.runPasses lines (m + 1 + 1) s =
          V2.runPasses lines (m + 1) t := by
        conv_lhs => rw [V2.runPasses]
        simp [h, bind, Except.bind]
      have h2 : V2.runPasses lines (m + 1) s = V2.runPasses lines m t := by
        conv_lhs => rw [V2.runPasses]
        simp [h, bind, Except.bind]
      rw [h1, h2, ih t]

/-- First pass over the oscillating program: the label starts at
`(0, undefined)`, the `MOV` encodes in one word (value 0 fits 8 bits),
and the label lands at 0xff00; the value change sets `dirty`. -/
theorem osc_pass_start :
    ∃ s', V2.onePass oscProgram (V2.driverStart oscProgram) = .ok s' ∧
      s'.labels = [("l", ⟨0xff00, true⟩)] ∧ s'.dirty = true :=
  ⟨_, rfl, rfl, rfl⟩

/-- A pass that reads `l = 0xff00` takes the two-word `MOV`+`MVH`
encoding (0xff00 is neither ≤ 255 nor > 0xff00), so the label moves to
0xff01 and the pass is dirty. -/
theorem osc_pass_ff00 (s : AssemblyState)
    (h : s.labels = [("l", ⟨0xff00, true⟩)]) :
    ∃ s', V2.onePass oscProgram s = .ok s' ∧
      s'.labels = [("l", ⟨0xff01, true⟩)] ∧ s'.dirty = true := by
  cases s with
  | mk labs syms res dir rom idx usd =>
    simp only at h
    subst h
    exact ⟨_, rfl, rfl, rfl⟩

/-- A pass that reads `l = 0xff01` takes the one-word `NEG` encoding
(0xff01 > 0xff00), so the label moves back to 0xff00 and the pass is
dirty. -/
theorem osc_pass_ff01 (s : AssemblyState)
    (h : s.labels = [("l", ⟨0xff01, true⟩)]) :
    ∃ s', V2.onePass oscProgram s = .ok s' ∧
      s'.labels = [("l", ⟨0xff00, true⟩)] ∧ s'.dirty = true := by
  cases s with
  | mk labs syms res dir rom idx usd =>
    simp only at h
    subst h
    exact ⟨_, rfl, rfl, rfl⟩

/-- Claim C2 (code bug): the pass driver's fixed-point loop
`for s.dirty || !s.resolved` has no iteration bound and no "undefined
label" failure path.  For the three-statement program
`.ORG 0xfeff ; MOV r0, #l ; :l`, every number of passes succeeds and
ends with `dirty = true` (the label oscillates between 0xff00 and
0xff01), so the loop condition is true after every pass and the driver
loops forever instead of failing fatally. -/
theorem C2_driver_never_converges :
    ∀ n : Nat, ∃ s',
      V2.runPasses oscProgram (n + 1) (V2.driverStart oscProgram) = .ok s' ∧
      s'.dirty = true ∧
      (s'.labels = [("l", ⟨0xff00, true⟩)] ∨
       s'.labels = [("l", ⟨0xff01, true⟩)]) := by
  intro n
  induction n with
  | zero =>
    obtain ⟨s', h1, h2, h3⟩ := osc_pass_start
    refine ⟨s', ?_, h3, Or.inl h2⟩
    simp [V2.runPasses, bind, Except.bind, h1]
  | succ m ih =>
    obtain ⟨s', h1, h2, h3⟩ := ih
    rw [runPasses_succ, h1]
    rcases h3 with h | h
    · obtain ⟨t, g1, g2, g3⟩ := osc_pass_ff00 s' h
      exact ⟨t, by simp [bind, Except.bind, g1], g3, Or.inr g2⟩
    · obtain ⟨t, g1, g2, g3⟩ := osc_pass_ff01 s' h
      exact ⟨t, by simp [bind, Except.bind, g1], g3, Or.inl g2⟩
